import Mathlib

/-!
Verification development for the werewolf game-state engine in
`src/context/GameContext.tsx` (types from `src/types/game.ts`).

Modelling conventions.  The source keeps one `GameState` in a React
`useState` container.  Inside one synchronous handler every read of
`gameState` sees the snapshot taken when the handler began, while the
queued functional updates (`setGameState(prev => ...)`) are applied in
order on top of each other.  The embedding makes this explicit: each
embedded routine receives the snapshot `g0` it reads from and an
accumulator state `acc` it updates, and a top-level handler starts with
`acc = g0`.  Chat messages are append-only and only their kind/identity
matters to the specification, so they are modelled as an emitted list of
`Narration` events rather than as a field of the state.  Toast errors are
modelled as an `Option GameError` result.  The mutually recursive
death-ability procedures have no termination argument in the source, so
they are embedded with an explicit fuel parameter; `none` means the fuel
ran out, and a computation that returns `none` for every fuel amount is a
computation that never terminates.  Player ids are uuid strings (never
empty), so JavaScript truthiness of a nullable id is `Option.isSome`.
-/

inductive PlayerRole where
  | villager | wolf | wolfKing | seer | witch | hunter | guard | moderator
deriving DecidableEq, Repr

inductive PlayerStatus where
  | alive | dead
deriving DecidableEq, Repr

structure Player where
  id : String
  name : String
  role : PlayerRole
  status : PlayerStatus
  isAI : Bool
deriving DecidableEq, Repr

inductive GamePhase where
  | lobby | night | day | voting | results | gameOver
deriving DecidableEq, Repr

inductive ActionType where
  | vote | wolfKill | seerReveal | witchSave | witchKill
  | hunterShoot | wolfKingKill | guardProtect
deriving DecidableEq, Repr

structure VoteAction where
  voterId : String
  targetId : String
  actionType : ActionType
deriving DecidableEq, Repr

structure NightActions where
  wolfKill : Option String
  seerReveal : Option String
  witchSave : Option String
  witchKill : Option String
  hunterTarget : Option String
  wolfKingTarget : Option String
  guardTarget : Option String
  lastGuardTarget : Option String
deriving DecidableEq, Repr

structure WitchPowers where
  hasPotion : Bool
  hasPoison : Bool
deriving DecidableEq, Repr

structure GameState where
  phase : GamePhase
  players : List Player
  votes : List VoteAction
  dayCount : Nat
  nightActions : NightActions
  witchPowers : WitchPowers
  speakingPlayerId : Option String
  winners : Option PlayerRole
deriving DecidableEq, Repr

/-- Message kinds of `addSystemMessage` (the `ChatMessageType` of the source):
`moderator` and `system` messages go to the village channel, `wolfChat`
messages go to the wolf channel. -/
inductive ChatMessageType where
  | village | wolfChat | moderator | system
deriving DecidableEq, Repr

/-- The narration events the engine emits, one constructor per
`addSystemMessage` call site (plus the private finding of the seer, which the
source appends to the wolf message list). -/
inductive Narration where
  | nightBegins
  | wolvesAct
  | protectedMsg
  | savedMsg
  | wolfKilled (victim : String)
  | poisoned (victim : String)
  | hunterFinalShot
  | hunterShoots (victim : String)
  | wolfKingRage
  | wolfKingDrags (victim : String)
  | seerFinding (target : String) (isWolf : Bool)
  | gameOverMsg (winner : PlayerRole)
  | dawnBreaks
  | firstSpeakerMsg (id : String)
  | timeToVote
  | noLynch
  | tieVote
  | lynched (victim : String)
  | nightFalls
  | wolvesNext
deriving DecidableEq, Repr

/-- The `ChatMessageType` each narration is emitted with in the source. -/
def narrationType : Narration → ChatMessageType
  | .nightBegins => .moderator
  | .wolvesAct => .wolfChat
  | .protectedMsg => .moderator
  | .savedMsg => .moderator
  | .wolfKilled _ => .moderator
  | .poisoned _ => .moderator
  | .hunterFinalShot => .moderator
  | .hunterShoots _ => .moderator
  | .wolfKingRage => .moderator
  | .wolfKingDrags _ => .moderator
  | .seerFinding _ _ => .system
  | .gameOverMsg _ => .moderator
  | .dawnBreaks => .moderator
  | .firstSpeakerMsg _ => .moderator
  | .timeToVote => .moderator
  | .noLynch => .moderator
  | .tieVote => .moderator
  | .lynched _ => .moderator
  | .nightFalls => .moderator
  | .wolvesNext => .wolfChat

/-- Errors surfaced as destructive toasts in the source. -/
inductive GameError where
  | notEnoughPlayers
  | noModerator
  | invalidProtection
deriving DecidableEq, Repr

/-- `initialNightActions` of the source. -/
def initialNightActions : NightActions :=
  ⟨none, none, none, none, none, none, none, none⟩

/-- `initialGameState` of the source (gameId and the message lists are
outside the model; see the header comment). -/
def initialGameState : GameState :=
  { phase := .lobby
    players := []
    votes := []
    dayCount := 0
    nightActions := initialNightActions
    witchPowers := ⟨true, true⟩
    speakingPlayerId := none
    winners := none }

/-- The `players.map(p => p.id === t ? with status dead : p)`
update used by every kill in the source. -/
def markDead (t : String) (ps : List Player) : List Player :=
  ps.map (fun p => if p.id = t then { p with status := PlayerStatus.dead } else p)

/-- Every roster entry carrying this id is dead. -/
def allDeadAt (x : String) (ps : List Player) : Prop :=
  ∀ p ∈ ps, p.id = x → p.status = PlayerStatus.dead

/-- `processHunterAbility` (flag `true`) and `processWolfKingAbility`
(flag `false`) of the source, joined into one function so the mutual
recursion is structural in the fuel.  Both read the target and the
role of the target from the snapshot `g0` and mark the target dead in `acc`;
if the snapshot role of the victim carries the other death ability they
recurse.  The source recursion has no fuel and no visited set; `none`
models fuel exhaustion. -/
def abilityChain : Nat → Bool → GameState → GameState → Option (GameState × List Narration)
  | 0, _, _, _ => none
  | fuel + 1, true, g0, acc =>
    match g0.nightActions.hunterTarget with
    | none => some (acc, [])
    | some t =>
      match g0.players.find? (fun p => p.id = t) with
      | none => some (acc, [])
      | some target =>
        let acc1 : GameState := { acc with players := markDead t acc.players }
        if target.role = PlayerRole.wolfKing then
          match abilityChain fuel false g0 acc1 with
          | none => none
          | some r => some (r.1, Narration.hunterShoots t :: Narration.wolfKingRage :: r.2)
        else some (acc1, [Narration.hunterShoots t])
  | fuel + 1, false, g0, acc =>
    match g0.nightActions.wolfKingTarget with
    | none => some (acc, [])
    | some t =>
      match g0.players.find? (fun p => p.id = t) with
      | none => some (acc, [])
      | some target =>
        let acc1 : GameState := { acc with players := markDead t acc.players }
        if target.role = PlayerRole.hunter then
          match abilityChain fuel true g0 acc1 with
          | none => none
          | some r => some (r.1, Narration.wolfKingDrags t :: Narration.hunterFinalShot :: r.2)
        else some (acc1, [Narration.wolfKingDrags t])

/-- `processHunterAbility` of the source. -/
def processHunterAbility (fuel : Nat) (g0 acc : GameState) : Option (GameState × List Narration) :=
  abilityChain fuel true g0 acc

/-- `processWolfKingAbility` of the source. -/
def processWolfKingAbility (fuel : Nat) (g0 acc : GameState) : Option (GameState × List Narration) :=
  abilityChain fuel false g0 acc

/-- Lines 432-463 of `processNightActions`: resolution of the wolf kill
against guard protection and the save of the witch, with the death-ability
chain of the victim. -/
def resolveWolfAttack (fuel : Nat) (g0 acc : GameState) : Option (GameState × List Narration) :=
  let wolfKill := g0.nightActions.wolfKill
  let guardTarget := g0.nightActions.guardTarget
  let witchSave := g0.nightActions.witchSave
  if wolfKill.isSome ∧ guardTarget.isSome ∧ wolfKill = guardTarget then
    some (acc, [Narration.protectedMsg])
  else if wolfKill.isSome ∧ witchSave.isSome ∧ wolfKill = witchSave then
    some (acc, [Narration.savedMsg])
  else
    match wolfKill with
    | none => some (acc, [])
    | some w =>
      match g0.players.find? (fun p => p.id = w) with
      | none => some (acc, [])
      | some killedPlayer =>
        let acc1 : GameState := { acc with players := markDead w acc.players }
        if killedPlayer.role = PlayerRole.hunter then
          match abilityChain fuel true g0 acc1 with
          | none => none
          | some r => some (r.1, Narration.wolfKilled w :: Narration.hunterFinalShot :: r.2)
        else if killedPlayer.role = PlayerRole.wolfKing then
          match abilityChain fuel false g0 acc1 with
          | none => none
          | some r => some (r.1, Narration.wolfKilled w :: Narration.wolfKingRage :: r.2)
        else some (acc1, [Narration.wolfKilled w])

/-- Lines 465-485 of `processNightActions`: the poison of the witch, applied
unconditionally, with the death-ability chain of the victim. -/
def resolvePoison (fuel : Nat) (g0 acc : GameState) : Option (GameState × List Narration) :=
  match g0.nightActions.witchKill with
  | none => some (acc, [])
  | some w =>
    match g0.players.find? (fun p => p.id = w) with
    | none => some (acc, [])
    | some killedPlayer =>
      let acc1 : GameState := { acc with players := markDead w acc.players }
      if killedPlayer.role = PlayerRole.hunter then
        match abilityChain fuel true g0 acc1 with
        | none => none
        | some r => some (r.1, Narration.poisoned w :: Narration.hunterFinalShot :: r.2)
      else if killedPlayer.role = PlayerRole.wolfKing then
        match abilityChain fuel false g0 acc1 with
        | none => none
        | some r => some (r.1, Narration.poisoned w :: Narration.wolfKingRage :: r.2)
      else some (acc1, [Narration.poisoned w])

/-- Lines 487-515 of `processNightActions`: the finding of the seer, emitted
only when both the examined target and a living seer exist in the
snapshot; it changes no player. -/
def resolveSeer (g0 : GameState) : List Narration :=
  match g0.nightActions.seerReveal with
  | none => []
  | some t =>
    match g0.players.find? (fun p => p.id = t),
          g0.players.find? (fun p => p.role = PlayerRole.seer ∧ p.status = PlayerStatus.alive) with
    | some target, some _ =>
      [Narration.seerFinding t
        (decide (target.role = PlayerRole.wolf ∨ target.role = PlayerRole.wolfKing))]
    | _, _ => []

/-- `determineWinners` of the source, a function of the players list it
reads (call sites pass the list held by the snapshot). -/
def determineWinners (players : List Player) : Option PlayerRole :=
  let alivePlayers := players.filter (fun p => p.status = PlayerStatus.alive)
  let aliveWolves := alivePlayers.filter
    (fun p => p.role = PlayerRole.wolf ∨ p.role = PlayerRole.wolfKing)
  let aliveVillagers := alivePlayers.filter (fun p => p.role = PlayerRole.villager)
  let aliveSpecialVillagers := alivePlayers.filter
    (fun p => p.role ≠ PlayerRole.wolf ∧ p.role ≠ PlayerRole.wolfKing ∧
      p.role ≠ PlayerRole.villager ∧ p.role ≠ PlayerRole.moderator)
  if aliveVillagers.length = 0 ∨ aliveSpecialVillagers.length = 0 then
    some PlayerRole.wolf
  else if aliveWolves.length = 0 then
    some PlayerRole.villager
  else
    none

/-- Lines 517-531 of `processNightActions`: the win check, evaluated on
the players of the snapshot (the deaths applied above it are not yet visible
to the `determineWinners` closure). -/
def resolveWin (g0 acc : GameState) : GameState × List Narration :=
  match determineWinners g0.players with
  | some w => ({ acc with phase := GamePhase.gameOver, winners := some w },
               [Narration.gameOverMsg w])
  | none => (acc, [])

/-- `processNightActions` of the source: wolf attack, poison, seer
finding and win check in order, every read taken from the snapshot `g0`
while the updates accumulate. -/
def processNightActions (fuel : Nat) (g0 : GameState) : Option (GameState × List Narration) :=
  match resolveWolfAttack fuel g0 g0 with
  | none => none
  | some (acc1, e1) =>
    match resolvePoison fuel g0 acc1 with
    | none => none
    | some (acc2, e2) =>
      let e3 := resolveSeer g0
      let r := resolveWin g0 acc2
      some (r.1, e1 ++ e2 ++ e3 ++ r.2)

/-- One step of building the `voteCounts` record: a JavaScript object
with uuid keys keeps first-insertion order, and a repeated key is bumped
in place. -/
def bump (acc : List (String × Nat)) (t : String) : List (String × Nat) :=
  match acc with
  | [] => [(t, 1)]
  | (k, n) :: rest => if k = t then (k, n + 1) :: rest else (k, n) :: bump rest t

/-- The `voteCounts` record of `processDayVoting`: ballots with
vote-typed ballots counted per target, in first-occurrence order. -/
def tally (votes : List VoteAction) : List (String × Nat) :=
  votes.foldl (fun acc v => if v.actionType = ActionType.vote then bump acc v.targetId else acc) []

/-- The single pass of `processDayVoting` over `Object.entries(voteCounts)`:
running maximum and the list of targets currently tied at it
(`maxVotes` starts at 0; a strictly higher count resets the list, an
equal count appends). -/
def maxPass (entries : List (String × Nat)) : Nat × List String :=
  entries.foldl
    (fun st e =>
      if e.2 > st.1 then (e.2, [e.1])
      else if e.2 = st.1 then (st.1, st.2 ++ [e.1])
      else st)
    (0, [])

/-- The `lynchTargetIds` list computed by `processDayVoting`. -/
def lynchTargets (votes : List VoteAction) : List String :=
  (maxPass (tally votes)).2

/-- `processDayVoting` of the source: zero candidates narrate
indecision, several narrate a tie, a unique plurality target is marked
dead and their death-ability chain runs (the roster and roles are read
from the snapshot `g0`). -/
def processDayVoting (fuel : Nat) (g0 acc : GameState) : Option (GameState × List Narration) :=
  match lynchTargets g0.votes with
  | [] => some (acc, [Narration.noLynch])
  | [t] =>
    match g0.players.find? (fun p => p.id = t) with
    | none => some (acc, [])
    | some target =>
      let acc1 : GameState := { acc with players := markDead t acc.players }
      if target.role = PlayerRole.hunter then
        match abilityChain fuel true g0 acc1 with
        | none => none
        | some r => some (r.1, Narration.lynched t :: Narration.hunterFinalShot :: r.2)
      else if target.role = PlayerRole.wolfKing then
        match abilityChain fuel false g0 acc1 with
        | none => none
        | some r => some (r.1, Narration.lynched t :: Narration.wolfKingRage :: r.2)
      else some (acc1, [Narration.lynched t])
  | _ :: _ :: _ => some (acc, [Narration.tieVote])

/-- `isActionAllowed` of the source: the only place role, phase and
witch-power availability are checked. -/
def isActionAllowed (g : GameState) (playerId : String) (a : ActionType) : Bool :=
  match g.players.find? (fun p => p.id = playerId) with
  | none => false
  | some player =>
    if player.status = PlayerStatus.dead then false
    else
      match a with
      | .vote => decide (g.phase = GamePhase.voting)
      | .wolfKill => decide (g.phase = GamePhase.night ∧
          (player.role = PlayerRole.wolf ∨ player.role = PlayerRole.wolfKing))
      | .seerReveal => decide (g.phase = GamePhase.night ∧ player.role = PlayerRole.seer)
      | .witchSave => decide (g.phase = GamePhase.night ∧ player.role = PlayerRole.witch ∧
          g.witchPowers.hasPotion = true)
      | .witchKill => decide (g.phase = GamePhase.night ∧ player.role = PlayerRole.witch ∧
          g.witchPowers.hasPoison = true)
      | .hunterShoot => decide (player.role = PlayerRole.hunter)
      | .wolfKingKill => decide (player.role = PlayerRole.wolfKing)
      | .guardProtect => decide (g.phase = GamePhase.night ∧ player.role = PlayerRole.guard)

/-- `startGame` of the source: rejects rosters of fewer than 4 players,
then rosters with no moderator (the only two checks), otherwise moves to
night, sets `dayCount` to 1, recharges the witch and emits the night and
wolf narrations. -/
def startGame (g : GameState) : GameState × List Narration × Option GameError :=
  if g.players.length < 4 then
    (g, [], some GameError.notEnoughPlayers)
  else if ¬ g.players.any (fun p => p.role = PlayerRole.moderator) then
    (g, [], some GameError.noModerator)
  else
    ({ g with phase := GamePhase.night, dayCount := 1, witchPowers := ⟨true, true⟩ },
     [Narration.nightBegins, Narration.wolvesAct], none)

/-- `castVote` of the source.  `currentPlayer` is the separate acting
player state; with none the call is a silent no-op.  The vote-list
replacement is queued before the night-action switch, so even the
rejected `guardProtect` branch has already replaced the previous
vote of the same action type. -/
def castVote (g : GameState) (currentPlayer : Option Player) (targetId : String)
    (actionType : ActionType) : GameState × Option GameError :=
  match currentPlayer with
  | none => (g, none)
  | some cp =>
    let newVote : VoteAction := ⟨cp.id, targetId, actionType⟩
    let filteredVotes := g.votes.filter
      (fun v => ¬ (v.voterId = cp.id ∧ v.actionType = actionType))
    let acc : GameState := { g with votes := filteredVotes ++ [newVote] }
    if g.phase = GamePhase.night then
      match actionType with
      | .wolfKill =>
        ({ acc with nightActions := { acc.nightActions with wolfKill := some targetId } }, none)
      | .seerReveal =>
        ({ acc with nightActions := { acc.nightActions with seerReveal := some targetId } }, none)
      | .witchSave =>
        ({ acc with
            nightActions := { acc.nightActions with witchSave := some targetId }
            witchPowers := { acc.witchPowers with hasPotion := false } }, none)
      | .witchKill =>
        ({ acc with
            nightActions := { acc.nightActions with witchKill := some targetId }
            witchPowers := { acc.witchPowers with hasPoison := false } }, none)
      | .hunterShoot =>
        ({ acc with nightActions := { acc.nightActions with hunterTarget := some targetId } }, none)
      | .wolfKingKill =>
        ({ acc with nightActions := { acc.nightActions with wolfKingTarget := some targetId } }, none)
      | .guardProtect =>
        if g.nightActions.lastGuardTarget = some targetId then
          (acc, some GameError.invalidProtection)
        else
          ({ acc with
              nightActions := { acc.nightActions with
                guardTarget := some targetId
                lastGuardTarget := some targetId } }, none)
      | .vote => (acc, none)
    else (acc, none)

/-- `advancePhase` of the source.  The night branch calls
`processNightActions` first and then overwrites the phase with day on
top of whatever it queued, computing the first speaker from the
pre-resolution roster of the snapshot; the voting branch calls
`processDayVoting` and then checks `determineWinners` on the players of the
snapshot.  From `gameOver` the game resets to a fresh lobby state. -/
def advancePhase (fuel : Nat) (g : GameState) :
    Option (GameState × List Narration × Option GameError) :=
  match g.phase with
  | .lobby =>
    let r := startGame g
    some (r.1, r.2.1, r.2.2)
  | .night =>
    match processNightActions fuel g with
    | none => none
    | some (acc1, e1) =>
      let alivePlayers := g.players.filter
        (fun p => p.status = PlayerStatus.alive ∧ p.role ≠ PlayerRole.moderator)
      match alivePlayers with
      | firstSpeaker :: _ =>
        some ({ acc1 with
                phase := GamePhase.day
                votes := []
                speakingPlayerId := some firstSpeaker.id },
              e1 ++ [Narration.dawnBreaks, Narration.firstSpeakerMsg firstSpeaker.id], none)
      | [] =>
        some ({ acc1 with phase := GamePhase.day, votes := [] },
              e1 ++ [Narration.dawnBreaks], none)
  | .day =>
    some ({ g with phase := GamePhase.voting, speakingPlayerId := none },
          [Narration.timeToVote], none)
  | .voting =>
    match processDayVoting fuel g g with
    | none => none
    | some (acc1, e1) =>
      match determineWinners g.players with
      | some w =>
        some ({ acc1 with phase := GamePhase.gameOver, winners := some w },
              e1 ++ [Narration.gameOverMsg w], none)
      | none =>
        some ({ acc1 with
                phase := GamePhase.night
                dayCount := acc1.dayCount + 1
                votes := []
                nightActions := { initialNightActions with
                  lastGuardTarget := acc1.nightActions.guardTarget } },
              e1 ++ [Narration.nightFalls, Narration.wolvesNext], none)
  | .results =>
    match determineWinners g.players with
    | some w =>
      some ({ g with phase := GamePhase.gameOver, winners := some w },
            [Narration.gameOverMsg w], none)
    | none =>
      some ({ g with
              phase := GamePhase.night
              dayCount := g.dayCount + 1
              votes := []
              nightActions := { initialNightActions with
                lastGuardTarget := g.nightActions.guardTarget } },
            [Narration.nightFalls, Narration.wolvesNext], none)
  | .gameOver =>
    some (initialGameState, [], none)

/-- Living plain villagers, counted directly (spec-side formulation for
the win-evaluator claim). -/
def countAliveVillagers (ps : List Player) : Nat :=
  ps.countP (fun p => decide (p.status = PlayerStatus.alive ∧ p.role = PlayerRole.villager))

/-- Living special roles (seer, witch, hunter, guard), counted directly. -/
def countAliveSpecials (ps : List Player) : Nat :=
  ps.countP (fun p => decide (p.status = PlayerStatus.alive ∧
    (p.role = PlayerRole.seer ∨ p.role = PlayerRole.witch ∨
     p.role = PlayerRole.hunter ∨ p.role = PlayerRole.guard)))

/-- Living wolf-aligned players (wolf, wolfKing), counted directly. -/
def countAliveWolfAligned (ps : List Player) : Nat :=
  ps.countP (fun p => decide (p.status = PlayerStatus.alive ∧
    (p.role = PlayerRole.wolf ∨ p.role = PlayerRole.wolfKing)))

theorem markDead_map_id (t : String) (ps : List Player) :
    (markDead t ps).map Player.id = ps.map Player.id := by
  simp only [markDead, List.map_map]
  apply List.map_congr_left
  intro p _
  by_cases h : p.id = t <;> simp [h]

theorem allDeadAt_markDead_self (t : String) (ps : List Player) :
    allDeadAt t (markDead t ps) := by
  intro p hp hid
  simp only [markDead, List.mem_map] at hp
  obtain ⟨q, _, hq⟩ := hp
  by_cases h : q.id = t
  · simp [h] at hq
    rw [← hq]
  · simp [h] at hq
    rw [← hq] at hid
    exact absurd hid h

theorem allDeadAt_markDead_mono (x t : String) (ps : List Player)
    (h : allDeadAt x ps) : allDeadAt x (markDead t ps) := by
  intro p hp hid
  simp only [markDead, List.mem_map] at hp
  obtain ⟨q, hq_mem, hq⟩ := hp
  by_cases ht : q.id = t
  · simp [ht] at hq
    rw [← hq]
  · simp [ht] at hq
    rw [← hq] at hid ⊢
    exact h q hq_mem hid

theorem allDeadAt_of_map_id (x : String) (ps ps2 : List Player)
    (hids : ps2.map Player.id = ps.map Player.id)
    (h : ∀ q ∈ ps, q.id ≠ x) : allDeadAt x ps2 := by
  intro p hp hid
  have : p.id ∈ ps2.map Player.id := List.mem_map_of_mem Player.id hp
  rw [hids] at this
  obtain ⟨q, hq_mem, hq⟩ := List.mem_map.mp this
  exact absurd (hq.trans hid) (h q hq_mem)

theorem abilityChain_shape (fuel : Nat) :
    ∀ (flag : Bool) (g0 acc : GameState) (r : GameState × List Narration),
      abilityChain fuel flag g0 acc = some r →
      r.1 = { acc with players := r.1.players }
      ∧ r.1.players.map Player.id = acc.players.map Player.id
      ∧ ∀ x, allDeadAt x acc.players → allDeadAt x r.1.players := by
  induction fuel with
  | zero => intro flag g0 acc r h; simp [abilityChain] at h
  | succ n ih =>
    intro flag g0 acc r h
    cases flag
    · simp only [abilityChain] at h
      split at h
      · cases h; exact ⟨rfl, rfl, fun x hx => hx⟩
      · rename_i t ht
        split at h
        · cases h; exact ⟨rfl, rfl, fun x hx => hx⟩
        · rename_i target _
          split at h
          · split at h
            · exact absurd h (by simp)
            · rename_i r1 hr1
              cases h
              obtain ⟨e1, e2, e3⟩ := ih true g0 _ r1 hr1
              refine ⟨?_, ?_, ?_⟩
              · rw [e1]
              · rw [e2]; exact markDead_map_id t acc.players
              · intro x hx
                exact e3 x (allDeadAt_markDead_mono x t acc.players hx)
          · cases h
            exact ⟨rfl, markDead_map_id t acc.players,
              fun x hx => allDeadAt_markDead_mono x t acc.players hx⟩
    · simp only [abilityChain] at h
      split at h
      · cases h; exact ⟨rfl, rfl, fun x hx => hx⟩
      · rename_i t ht
        split at h
        · cases h; exact ⟨rfl, rfl, fun x hx => hx⟩
        · rename_i target _
          split at h
          · split at h
            · exact absurd h (by simp)
            · rename_i r1 hr1
              cases h
              obtain ⟨e1, e2, e3⟩ := ih false g0 _ r1 hr1
              refine ⟨?_, ?_, ?_⟩
              · rw [e1]
              · rw [e2]; exact markDead_map_id t acc.players
              · intro x hx
                exact e3 x (allDeadAt_markDead_mono x t acc.players hx)
          · cases h
            exact ⟨rfl, markDead_map_id t acc.players,
              fun x hx => allDeadAt_markDead_mono x t acc.players hx⟩

theorem resolveWolfAttack_shape (fuel : Nat) (g0 acc : GameState)
    (r : GameState × List Narration)
    (h : resolveWolfAttack fuel g0 acc = some r) :
    r.1 = { acc with players := r.1.players }
    ∧ r.1.players.map Player.id = acc.players.map Player.id
    ∧ ∀ x, allDeadAt x acc.players → allDeadAt x r.1.players := by
  simp only [resolveWolfAttack] at h
  split at h
  · cases h; exact ⟨rfl, rfl, fun x hx => hx⟩
  · split at h
    · cases h; exact ⟨rfl, rfl, fun x hx => hx⟩
    · split at h
      · cases h; exact ⟨rfl, rfl, fun x hx => hx⟩
      · rename_i w hw
        split at h
        · cases h; exact ⟨rfl, rfl, fun x hx => hx⟩
        · rename_i killedPlayer hkp
          split at h
          · split at h
            · exact absurd h (by simp)
            · rename_i r1 hr1
              cases h
              obtain ⟨e1, e2, e3⟩ := abilityChain_shape fuel true g0 _ r1 hr1
              exact ⟨by rw [e1], by rw [e2]; exact markDead_map_id w acc.players,
                fun x hx => e3 x (allDeadAt_markDead_mono x w acc.players hx)⟩
          · split at h
            · split at h
              · exact absurd h (by simp)
              · rename_i r1 hr1
                cases h
                obtain ⟨e1, e2, e3⟩ := abilityChain_shape fuel false g0 _ r1 hr1
                exact ⟨by rw [e1], by rw [e2]; exact markDead_map_id w acc.players,
                  fun x hx => e3 x (allDeadAt_markDead_mono x w acc.players hx)⟩
            · cases h
              exact ⟨rfl, markDead_map_id w acc.players,
                fun x hx => allDeadAt_markDead_mono x w acc.players hx⟩

theorem resolvePoison_shape (fuel : Nat) (g0 acc : GameState)
    (r : GameState × List Narration)
    (h : resolvePoison fuel g0 acc = some r) :
    r.1 = { acc with players := r.1.players }
    ∧ r.1.players.map Player.id = acc.players.map Player.id
    ∧ ∀ x, allDeadAt x acc.players → allDeadAt x r.1.players := by
  simp only [resolvePoison] at h
  split at h
  · cases h; exact ⟨rfl, rfl, fun x hx => hx⟩
  · rename_i w hw
    split at h
    · cases h; exact ⟨rfl, rfl, fun x hx => hx⟩
    · rename_i killedPlayer hkp
      split at h
      · split at h
        · exact absurd h (by simp)
        · rename_i r1 hr1
          cases h
          obtain ⟨e1, e2, e3⟩ := abilityChain_shape fuel true g0 _ r1 hr1
          exact ⟨by rw [e1], by rw [e2]; exact markDead_map_id w acc.players,
            fun x hx => e3 x (allDeadAt_markDead_mono x w acc.players hx)⟩
      · split at h
        · split at h
          · exact absurd h (by simp)
          · rename_i r1 hr1
            cases h
            obtain ⟨e1, e2, e3⟩ := abilityChain_shape fuel false g0 _ r1 hr1
            exact ⟨by rw [e1], by rw [e2]; exact markDead_map_id w acc.players,
              fun x hx => e3 x (allDeadAt_markDead_mono x w acc.players hx)⟩
        · cases h
          exact ⟨rfl, markDead_map_id w acc.players,
            fun x hx => allDeadAt_markDead_mono x w acc.players hx⟩

theorem processDayVoting_shape (fuel : Nat) (g0 acc : GameState)
    (r : GameState × List Narration)
    (h : processDayVoting fuel g0 acc = some r) :
    r.1 = { acc with players := r.1.players }
    ∧ r.1.players.map Player.id = acc.players.map Player.id
    ∧ ∀ x, allDeadAt x acc.players → allDeadAt x r.1.players := by
  simp only [processDayVoting] at h
  split at h
  · cases h; exact ⟨rfl, rfl, fun x hx => hx⟩
  · rename_i t ht
    split at h
    · cases h; exact ⟨rfl, rfl, fun x hx => hx⟩
    · rename_i target htarget
      split at h
      · split at h
        · exact absurd h (by simp)
        · rename_i r1 hr1
          cases h
          obtain ⟨e1, e2, e3⟩ := abilityChain_shape fuel true g0 _ r1 hr1
          exact ⟨by rw [e1], by rw [e2]; exact markDead_map_id t acc.players,
            fun x hx => e3 x (allDeadAt_markDead_mono x t acc.players hx)⟩
      · split at h
        · split at h
          · exact absurd h (by simp)
          · rename_i r1 hr1
            cases h
            obtain ⟨e1, e2, e3⟩ := abilityChain_shape fuel false g0 _ r1 hr1
            exact ⟨by rw [e1], by rw [e2]; exact markDead_map_id t acc.players,
              fun x hx => e3 x (allDeadAt_markDead_mono x t acc.players hx)⟩
        · cases h
          exact ⟨rfl, markDead_map_id t acc.players,
            fun x hx => allDeadAt_markDead_mono x t acc.players hx⟩
  · cases h; exact ⟨rfl, rfl, fun x hx => hx⟩

theorem resolveWin_players (g0 acc : GameState) :
    (resolveWin g0 acc).1.players = acc.players := by
  simp only [resolveWin]
  split <;> rfl

theorem processNightActions_kills_witchKill (fuel : Nat) (g : GameState) (y : String)
    (hwk : g.nightActions.witchKill = some y) (r : GameState × List Narration)
    (h : processNightActions fuel g = some r) :
    allDeadAt y r.1.players := by
  simp only [processNightActions] at h
  split at h
  · exact absurd h (by simp)
  · rename_i acc1 e1 hp1
    split at h
    · exact absurd h (by simp)
    · rename_i acc2 e2 hp2
      cases h
      rw [resolveWin_players]
      simp only [resolvePoison, hwk] at hp2
      split at hp2
      · rename_i hfind
        cases hp2
        obtain ⟨_, hids, _⟩ := resolveWolfAttack_shape fuel g g (acc1, e1) hp1
        refine allDeadAt_of_map_id y g.players acc1.players hids ?_
        intro q hq
        have := List.find?_eq_none.mp hfind q hq
        simpa using this
      · rename_i kp hkp
        split at hp2
        · split at hp2
          · exact absurd hp2 (by simp)
          · rename_i r1 hr1
            cases hp2
            exact (abilityChain_shape fuel true g _ r1 hr1).2.2 y
              (allDeadAt_markDead_self y acc1.players)
        · split at hp2
          · split at hp2
            · exact absurd hp2 (by simp)
            · rename_i r1 hr1
              cases hp2
              exact (abilityChain_shape fuel false g _ r1 hr1).2.2 y
                (allDeadAt_markDead_self y acc1.players)
          · cases hp2
            exact allDeadAt_markDead_self y acc1.players

/-- Claim C1: night resolution order.  If the target of the guard equals the
victim chosen by the wolves, the wolf-attack stage leaves the state untouched and
emits exactly the "protected" narration (so the victim survives the
attack, and when no poison is cast the whole resolution leaves every
player unchanged); otherwise if the save of the witch equals the victim, the
stage emits exactly the "saved" narration and no death; otherwise the
victim of a set wolf kill ends the stage dead; and independently of all
of these, a set witch-kill target ends the resolution dead, even when it
equals the guard target or the save target. -/
theorem c1_night_resolution_order (g : GameState) (fuel : Nat) (x y : String) :
    (g.nightActions.wolfKill = some x → g.nightActions.guardTarget = some x →
      resolveWolfAttack fuel g g = some (g, [Narration.protectedMsg]))
    ∧ (g.nightActions.wolfKill = some x → g.nightActions.guardTarget = some x →
        g.nightActions.witchKill = none →
        ∀ r : GameState × List Narration, processNightActions fuel g = some r →
          r.1.players = g.players)
    ∧ (g.nightActions.wolfKill = some x → g.nightActions.guardTarget ≠ some x →
        g.nightActions.witchSave = some x →
        resolveWolfAttack fuel g g = some (g, [Narration.savedMsg]))
    ∧ (g.nightActions.wolfKill = some x → g.nightActions.guardTarget ≠ some x →
        g.nightActions.witchSave ≠ some x →
        ∀ r : GameState × List Narration, resolveWolfAttack fuel g g = some r →
          allDeadAt x r.1.players)
    ∧ (g.nightActions.witchKill = some y →
        ∀ r : GameState × List Narration, processNightActions fuel g = some r →
          allDeadAt y r.1.players) := by
  refine ⟨?_, ?_, ?_, ?_, ?_⟩
  · intro h1 h2
    simp [resolveWolfAttack, h1, h2]
  · intro h1 h2 h3 r hr
    have e : resolveWolfAttack fuel g g = some (g, [Narration.protectedMsg]) := by
      simp [resolveWolfAttack, h1, h2]
    simp only [processNightActions, e] at hr
    simp only [resolvePoison, h3] at hr
    cases hr
    rw [resolveWin_players]
  · intro h1 h2 h3
    cases hg : g.nightActions.guardTarget with
    | none => simp [resolveWolfAttack, h1, h3, hg]
    | some z =>
      have hzx : ¬ (x = z) := fun he => h2 (by rw [hg, he])
      simp [resolveWolfAttack, h1, h3, hg, hzx]
  · intro h1 h2 h3 r hr
    simp only [resolveWolfAttack] at hr
    split at hr
    · rename_i hc
      rw [h1] at hc
      exact absurd hc.2.2.symm h2
    · split at hr
      · rename_i hc
        rw [h1] at hc
        exact absurd hc.2.2.symm h3
      · split at hr
        · rename_i hw
          rw [h1] at hw
          cases hw
        · rename_i w hw
          rw [h1] at hw
          injection hw with hwx
          subst hwx
          split at hr
          · rename_i hfind
            cases hr
            intro p hp hid
            have := List.find?_eq_none.mp hfind p hp
            simp [hid] at this
          · rename_i kp hkp
            split at hr
            · split at hr
              · exact absurd hr (by simp)
              · rename_i r1 hr1
                cases hr
                exact (abilityChain_shape fuel true g _ r1 hr1).2.2 x
                  (allDeadAt_markDead_self x g.players)
            · split at hr
              · split at hr
                · exact absurd hr (by simp)
                · rename_i r1 hr1
                  cases hr
                  exact (abilityChain_shape fuel false g _ r1 hr1).2.2 x
                    (allDeadAt_markDead_self x g.players)
              · cases hr
                exact allDeadAt_markDead_self x g.players
  · intro h1 r hr
    exact processNightActions_kills_witchKill fuel g y h1 r hr

theorem length_filter_alive_villager (ps : List Player) :
    ((ps.filter (fun p => p.status = PlayerStatus.alive)).filter
       (fun p => p.role = PlayerRole.villager)).length = countAliveVillagers ps := by
  rw [List.filter_filter, countAliveVillagers, List.countP_eq_length_filter]
  congr 1
  apply List.filter_congr
  intro p _
  cases hp : p.role <;> cases hs : p.status <;> simp [hp, hs]

theorem length_filter_alive_special (ps : List Player) :
    ((ps.filter (fun p => p.status = PlayerStatus.alive)).filter
       (fun p => p.role ≠ PlayerRole.wolf ∧ p.role ≠ PlayerRole.wolfKing ∧
         p.role ≠ PlayerRole.villager ∧ p.role ≠ PlayerRole.moderator)).length
      = countAliveSpecials ps := by
  rw [List.filter_filter, countAliveSpecials, List.countP_eq_length_filter]
  congr 1
  apply List.filter_congr
  intro p _
  cases hp : p.role <;> cases hs : p.status <;> simp [hp, hs]

theorem length_filter_alive_wolfAligned (ps : List Player) :
    ((ps.filter (fun p => p.status = PlayerStatus.alive)).filter
       (fun p => p.role = PlayerRole.wolf ∨ p.role = PlayerRole.wolfKing)).length
      = countAliveWolfAligned ps := by
  rw [List.filter_filter, countAliveWolfAligned, List.countP_eq_length_filter]
  congr 1
  apply List.filter_congr
  intro p _
  cases hp : p.role <;> cases hs : p.status <;> simp [hp, hs]

theorem determineWinners_eq_counts (ps : List Player) :
    determineWinners ps =
      if countAliveVillagers ps = 0 ∨ countAliveSpecials ps = 0 then some PlayerRole.wolf
      else if countAliveWolfAligned ps = 0 then some PlayerRole.villager
      else none := by
  simp only [determineWinners]
  rw [length_filter_alive_villager, length_filter_alive_special, length_filter_alive_wolfAligned]

theorem countAliveVillagers_filter_mod (ps : List Player) :
    countAliveVillagers (ps.filter (fun p => p.role ≠ PlayerRole.moderator))
      = countAliveVillagers ps := by
  rw [countAliveVillagers, countAliveVillagers, List.countP_filter]
  apply List.countP_congr
  intro p _
  cases hp : p.role <;> cases hs : p.status <;> simp [hp, hs]

theorem countAliveSpecials_filter_mod (ps : List Player) :
    countAliveSpecials (ps.filter (fun p => p.role ≠ PlayerRole.moderator))
      = countAliveSpecials ps := by
  rw [countAliveSpecials, countAliveSpecials, List.countP_filter]
  apply List.countP_congr
  intro p _
  cases hp : p.role <;> cases hs : p.status <;> simp [hp, hs]

theorem countAliveWolfAligned_filter_mod (ps : List Player) :
    countAliveWolfAligned (ps.filter (fun p => p.role ≠ PlayerRole.moderator))
      = countAliveWolfAligned ps := by
  rw [countAliveWolfAligned, countAliveWolfAligned, List.countP_filter]
  apply List.countP_congr
  intro p _
  cases hp : p.role <;> cases hs : p.status <;> simp [hp, hs]

/-- Claim C6: the win evaluator.  For every players list it returns wolf
exactly when the living plain villagers or the living special roles
(seer, witch, hunter, guard) are exhausted, villager exactly when
neither is exhausted and no wolf-aligned player (wolf, wolfKing) lives,
and null otherwise; the moderator is excluded from every count, so
removing all moderators from the roster never changes the verdict.  The
function is a pure function of the players list (the embedding takes and
returns values, so purity and idempotence are intrinsic). -/
theorem c6_win_evaluator (ps : List Player) :
    (determineWinners ps = some PlayerRole.wolf ↔
      countAliveVillagers ps = 0 ∨ countAliveSpecials ps = 0)
    ∧ (determineWinners ps = some PlayerRole.villager ↔
      countAliveVillagers ps ≠ 0 ∧ countAliveSpecials ps ≠ 0 ∧ countAliveWolfAligned ps = 0)
    ∧ (determineWinners ps = none ↔
      countAliveVillagers ps ≠ 0 ∧ countAliveSpecials ps ≠ 0 ∧ countAliveWolfAligned ps ≠ 0)
    ∧ determineWinners (ps.filter (fun p => p.role ≠ PlayerRole.moderator))
        = determineWinners ps := by
  refine ⟨?_, ?_, ?_, ?_⟩
  · rw [determineWinners_eq_counts]
    split_ifs with h1 h2 <;> simp_all
  · rw [determineWinners_eq_counts]
    split_ifs with h1 h2 <;> simp_all
    tauto
  · rw [determineWinners_eq_counts]
    split_ifs with h1 h2 <;> simp_all
    tauto
  · rw [determineWinners_eq_counts, determineWinners_eq_counts,
      countAliveVillagers_filter_mod, countAliveSpecials_filter_mod,
      countAliveWolfAligned_filter_mod]

/-- A snapshot in which the shot of the hunter targets the wolf king and the
final kill of the wolf king targets the hunter (the cyclic configuration of
the chained-deaths test in the specification). -/
def cycleSnapshot : GameState :=
  { initialGameState with
      phase := GamePhase.night
      players := [⟨"H", "Hunter", PlayerRole.hunter, PlayerStatus.alive, false⟩,
                  ⟨"W", "WolfKing", PlayerRole.wolfKing, PlayerStatus.alive, false⟩]
      nightActions := { initialNightActions with
        hunterTarget := some "W"
        wolfKingTarget := some "H" } }

theorem abilityChain_cycle_none (fuel : Nat) :
    ∀ (flag : Bool) (acc : GameState), abilityChain fuel flag cycleSnapshot acc = none := by
  induction fuel with
  | zero => intro flag acc; rfl
  | succ n ih =>
    intro flag acc
    cases flag
    · have e := ih true { acc with players := markDead "H" acc.players }
      show (match abilityChain n true cycleSnapshot
              { acc with players := markDead "H" acc.players } with
        | none => none
        | some r =>
          some (r.1, Narration.wolfKingDrags "H" :: Narration.hunterFinalShot :: r.2)) = none
      rw [e]
    · have e := ih false { acc with players := markDead "W" acc.players }
      show (match abilityChain n false cycleSnapshot
              { acc with players := markDead "W" acc.players } with
        | none => none
        | some r =>
          some (r.1, Narration.hunterShoots "W" :: Narration.wolfKingRage :: r.2)) = none
      rw [e]

/-- Claim C5: the claim asserts the death-triggered ability chain is a
worklist that always empties.  The code instead recurses between
`processHunterAbility` and `processWolfKingAbility` with no visited set:
on the cyclic snapshot (hunter targets the wolf king, wolf king targets
the hunter) the recursion never returns, modelled here as the fuelled
embedding exhausting every finite fuel from every starting state. -/
theorem c5_death_chain_diverges (fuel : Nat) (acc : GameState) :
    processHunterAbility fuel cycleSnapshot acc = none
    ∧ processWolfKingAbility fuel cycleSnapshot acc = none :=
  ⟨abilityChain_cycle_none fuel true acc, abilityChain_cycle_none fuel false acc⟩

/-- A night in which the guard protects exactly the victim chosen by the wolves. -/
def nightGuardState : GameState :=
  { initialGameState with
      phase := GamePhase.night
      players := [⟨"A", "Ann", PlayerRole.villager, PlayerStatus.alive, false⟩,
                  ⟨"B", "Bo", PlayerRole.guard, PlayerStatus.alive, false⟩,
                  ⟨"M", "Mod", PlayerRole.moderator, PlayerStatus.alive, false⟩]
      nightActions := { initialNightActions with
        wolfKill := some "A"
        guardTarget := some "A" } }

/-- A night in which the witch poisons player C. -/
def nightPoisonState : GameState :=
  { initialGameState with
      phase := GamePhase.night
      players := [⟨"C", "Cal", PlayerRole.villager, PlayerStatus.alive, false⟩,
                  ⟨"M", "Mod", PlayerRole.moderator, PlayerStatus.alive, false⟩]
      nightActions := { initialNightActions with witchKill := some "C" } }

/-- Witness for the night-resolution claim: on a concrete protected
night the wolf-attack stage emits exactly the protected narration and
changes nothing, and on a concrete poison night the poisoned player ends
the resolution dead. -/
theorem c1_night_resolution_order_witness :
    resolveWolfAttack 3 nightGuardState nightGuardState
        = some (nightGuardState, [Narration.protectedMsg])
    ∧ allDeadAt "C"
        ((processNightActions 3 nightPoisonState).getD (nightPoisonState, [])).1.players := by
  constructor
  · exact (c1_night_resolution_order nightGuardState 3 "A" "C").1 rfl rfl
  · exact (c1_night_resolution_order nightPoisonState 3 "A" "C").2.2.2.2 rfl _ rfl

/-- A night on which the snapshot already satisfies the wolf win
condition (no living plain villager), so the win check inside night
resolution fires. -/
def staleWinNightState : GameState :=
  { initialGameState with
      phase := GamePhase.night
      players := [⟨"M", "Mod", PlayerRole.moderator, PlayerStatus.alive, false⟩,
                  ⟨"W", "Wolf", PlayerRole.wolf, PlayerStatus.alive, false⟩,
                  ⟨"S", "Seer", PlayerRole.seer, PlayerStatus.alive, false⟩] }

/-- Claim C2 (code bug): the claim says a winner decided by the win
evaluation inside night resolution makes advance() from night end in
gameOver.  In the code the night branch of advancePhase queues its
night-to-day update after processNightActions, so the day write lands on
top of the gameOver write: on this concrete night the winner is decided
(winners is set and the game-over narration is emitted) yet the final
phase is day, not gameOver.  The reset conjunct shows the transition out
of gameOver is the fresh-lobby reset, as the second half of the claim says. -/
theorem c2_terminal_state_overwritten :
    determineWinners staleWinNightState.players = some PlayerRole.wolf
    ∧ (advancePhase 1 staleWinNightState).map
        (fun r => (r.1.phase, r.1.winners, r.2.1))
      = some (GamePhase.day, some PlayerRole.wolf,
          [Narration.gameOverMsg PlayerRole.wolf, Narration.dawnBreaks,
           Narration.firstSpeakerMsg "W"])
    ∧ advancePhase 1 { staleWinNightState with phase := GamePhase.gameOver }
        = some (initialGameState, [], none) := by
  refine ⟨rfl, rfl, rfl⟩

/-- A night on which the wolves kill villager A and no winner results. -/
def nightKillState : GameState :=
  { initialGameState with
      phase := GamePhase.night
      players := [⟨"M", "Mod", PlayerRole.moderator, PlayerStatus.alive, false⟩,
                  ⟨"A", "Ann", PlayerRole.villager, PlayerStatus.alive, false⟩,
                  ⟨"B", "Bo", PlayerRole.villager, PlayerStatus.alive, false⟩,
                  ⟨"S", "Seer", PlayerRole.seer, PlayerStatus.alive, false⟩,
                  ⟨"W", "Wolf", PlayerRole.wolf, PlayerStatus.alive, false⟩]
      nightActions := { initialNightActions with wolfKill := some "A" } }

/-- Status of the roster entry with the given id. -/
def statusOf (ps : List Player) (x : String) : Option PlayerStatus :=
  (ps.find? (fun p => p.id = x)).map Player.status

/-- Claim C9 (code bug): the claim says advance() from night seats as
first speaker the first living non-moderator computed after the deaths of the night.  The code filters the roster of the snapshot taken before resolution,
so on this concrete night the victim A of the wolves is marked dead by the
resolution and is still seated as the first speaker. -/
theorem c9_first_speaker_stale :
    (advancePhase 1 nightKillState).map
        (fun r => (r.1.phase, r.1.votes, r.1.speakingPlayerId, statusOf r.1.players "A"))
      = some (GamePhase.day, [], some "A", some PlayerStatus.dead) := by
  rfl

/-- A 3-player lobby (below the minimum). -/
def threePlayerLobby : GameState :=
  { initialGameState with
      players := [⟨"M", "Mod", PlayerRole.moderator, PlayerStatus.alive, false⟩,
                  ⟨"A", "Ann", PlayerRole.villager, PlayerStatus.alive, false⟩,
                  ⟨"B", "Bo", PlayerRole.villager, PlayerStatus.alive, false⟩] }

/-- A 4-player lobby with a moderator but no wolf, seer, witch or
hunter. -/
def fourPlayerLobby : GameState :=
  { initialGameState with
      players := [⟨"M", "Mod", PlayerRole.moderator, PlayerStatus.alive, false⟩,
                  ⟨"A", "Ann", PlayerRole.villager, PlayerStatus.alive, false⟩,
                  ⟨"B", "Bo", PlayerRole.villager, PlayerStatus.alive, false⟩,
                  ⟨"C", "Cy", PlayerRole.villager, PlayerStatus.alive, false⟩]}

/-- Counterexample to claim C3: this roster has no wolf, no seer, no
witch and no hunter, so the claim requires start() to fail with a
SetupError and mutate nothing; the code checks only the player count and
the presence of a moderator, so it starts the game. -/
theorem c3_counterexample :
    (startGame fourPlayerLobby).2.2 = none
    ∧ (startGame fourPlayerLobby).1.phase = GamePhase.night
    ∧ (startGame fourPlayerLobby).1.dayCount = 1 := by
  refine ⟨rfl, rfl, rfl⟩

/-- Claim C3 (amended): start() fails with the not-enough-players error
and mutates nothing when the roster has fewer than 4 players, fails with
the no-moderator error and mutates nothing when it has at least 4
players but no moderator, and otherwise (at least 4 players and at least
one moderator — no other role counts are checked and several moderators
are accepted) moves to night, sets dayCount to 1, recharges both witch
powers and emits a moderator-typed and a wolf-typed narration. -/
theorem c3_start_checks_amended (g : GameState) :
    (g.players.length < 4 → startGame g = (g, [], some GameError.notEnoughPlayers))
    ∧ (4 ≤ g.players.length → (∀ p ∈ g.players, p.role ≠ PlayerRole.moderator) →
        startGame g = (g, [], some GameError.noModerator))
    ∧ (4 ≤ g.players.length →
        ∀ m ∈ g.players, m.role = PlayerRole.moderator →
        startGame g =
          ({ g with
              phase := GamePhase.night
              dayCount := 1
              witchPowers := ⟨true, true⟩ },
           [Narration.nightBegins, Narration.wolvesAct], none)
        ∧ narrationType Narration.nightBegins = ChatMessageType.moderator
        ∧ narrationType Narration.wolvesAct = ChatMessageType.wolfChat) := by
  refine ⟨?_, ?_, ?_⟩
  · intro h
    unfold startGame
    rw [if_pos h]
  · intro h4 hnomod
    unfold startGame
    rw [if_neg (by omega)]
    rw [if_pos]
    intro hcontra
    obtain ⟨p, hp, hrole⟩ := List.any_eq_true.mp hcontra
    exact hnomod p hp (by simpa using hrole)
  · intro h4 m hm hrole
    refine ⟨?_, rfl, rfl⟩
    unfold startGame
    rw [if_neg (by omega)]
    rw [if_neg]
    intro hfalse
    exact hfalse (List.any_eq_true.mpr ⟨m, hm, by simp [hrole]⟩)

/-- Witness for the amended start() claim: the 3-player roster is
rejected without mutation, the 4-player roster with only a moderator and
villagers starts the game. -/
theorem c3_start_checks_amended_witness :
    startGame threePlayerLobby = (threePlayerLobby, [], some GameError.notEnoughPlayers)
    ∧ startGame fourPlayerLobby =
        ({ fourPlayerLobby with
            phase := GamePhase.night
            dayCount := 1
            witchPowers := ⟨true, true⟩ },
         [Narration.nightBegins, Narration.wolvesAct], none) := by
  constructor
  · exact (c3_start_checks_amended threePlayerLobby).1 (by decide)
  · exact ((c3_start_checks_amended fourPlayerLobby).2.2 (by decide)
      ⟨"M", "Mod", PlayerRole.moderator, PlayerStatus.alive, false⟩ (by decide) rfl).1

/-- The guard player. -/
def guardPlayer : Player := ⟨"G", "Guard", PlayerRole.guard, PlayerStatus.alive, false⟩

/-- A night at the start of which the protect target of the previous night
was A and no vote has been cast yet. -/
def guardRepeatState : GameState :=
  { initialGameState with
      phase := GamePhase.night
      players := [⟨"A", "Ann", PlayerRole.villager, PlayerStatus.alive, false⟩, guardPlayer]
      nightActions := { initialNightActions with lastGuardTarget := some "A" } }

/-- Counterexample to claim C4: repeating the protection on A is
rejected with the error and `guardTarget` is unchanged, but the votes
list is not: it goes from empty to holding the rejected guardProtect
ballot, so the rejection is not atomic on the votes list. -/
theorem c4_counterexample :
    (castVote guardRepeatState (some guardPlayer) "A" ActionType.guardProtect).2
        = some GameError.invalidProtection
    ∧ (castVote guardRepeatState (some guardPlayer) "A"
        ActionType.guardProtect).1.nightActions.guardTarget
        = guardRepeatState.nightActions.guardTarget
    ∧ guardRepeatState.votes = []
    ∧ (castVote guardRepeatState (some guardPlayer) "A" ActionType.guardProtect).1.votes
        = [⟨"G", "A", ActionType.guardProtect⟩] := by
  refine ⟨rfl, rfl, rfl, rfl⟩

/-- Claim C4 (amended): in a night phase, a guardProtect vote on the
stored `lastGuardTarget` is rejected with the invalid-protection error
and the whole `nightActions` record (in particular `guardTarget`) is
left unchanged, but the votes list is still updated: the guardProtect
ballot previously stored for that voter is replaced by the newly
attempted one, because the vote-list write is queued before the
rejection check. -/
theorem c4_guard_repeat_amended (g : GameState) (v : Player) (t : String)
    (hphase : g.phase = GamePhase.night)
    (hlast : g.nightActions.lastGuardTarget = some t) :
    castVote g (some v) t ActionType.guardProtect =
      ({ g with votes := g.votes.filter
                    (fun w => ¬ (w.voterId = v.id ∧ w.actionType = ActionType.guardProtect))
                  ++ [⟨v.id, t, ActionType.guardProtect⟩] },
       some GameError.invalidProtection) := by
  simp [castVote, hphase, hlast]

/-- Witness for the amended guard-repeat claim on the concrete repeat
night. -/
theorem c4_guard_repeat_amended_witness :
    castVote guardRepeatState (some guardPlayer) "A" ActionType.guardProtect =
      ({ guardRepeatState with
          votes := (guardRepeatState.votes.filter
              (fun w => ¬ (w.voterId = guardPlayer.id ∧
                w.actionType = ActionType.guardProtect))
            ++ [⟨guardPlayer.id, "A", ActionType.guardProtect⟩]) },
       some GameError.invalidProtection) :=
  c4_guard_repeat_amended guardRepeatState guardPlayer "A" rfl rfl

/-- A night on which the guard has never acted (`lastGuardTarget` is
null). -/
def freshNightState : GameState :=
  { initialGameState with
      phase := GamePhase.night
      players := [⟨"B", "Bo", PlayerRole.villager, PlayerStatus.alive, false⟩, guardPlayer] }

/-- Counterexample to claim C8: the guard has not acted in the game, so
by the claim `lastGuardTarget` stays null for the whole current night;
but one guardProtect cast during this night sets it to the new target
immediately, before any night boundary. -/
theorem c8_counterexample :
    freshNightState.phase = GamePhase.night
    ∧ freshNightState.nightActions.lastGuardTarget = none
    ∧ (castVote freshNightState (some guardPlayer) "B"
        ActionType.guardProtect).1.nightActions.lastGuardTarget = some "B" := by
  refine ⟨rfl, rfl, rfl⟩

/-- Claim C8 (amended): `lastGuardTarget` does not hold the protection of the previous
night for the whole current night — castVote guardProtect
writes both `guardTarget` and `lastGuardTarget` immediately when the
target differs from the stored `lastGuardTarget`; at the voting-to-night
boundary the night record is reset and `lastGuardTarget` is set to the
`guardTarget` the resolver used, so at every moment `lastGuardTarget` is
the most recently accepted protection target (null before the guard ever
acts). -/
theorem c8_last_guard_amended (g : GameState) (v : Player) (t : String) (fuel : Nat) :
    (g.phase = GamePhase.night → g.nightActions.lastGuardTarget ≠ some t →
      (castVote g (some v) t ActionType.guardProtect).1.nightActions.guardTarget = some t
      ∧ (castVote g (some v) t ActionType.guardProtect).1.nightActions.lastGuardTarget = some t
      ∧ (castVote g (some v) t ActionType.guardProtect).2 = none)
    ∧ (g.phase = GamePhase.voting → determineWinners g.players = none →
        ∀ r : GameState × List Narration × Option GameError,
          advancePhase fuel g = some r →
          r.1.nightActions.lastGuardTarget = g.nightActions.guardTarget
          ∧ r.1.nightActions.guardTarget = none) := by
  constructor
  · intro hphase hlast
    simp [castVote, hphase, hlast]
  · intro hphase hdw r hr
    simp only [advancePhase, hphase, hdw] at hr
    split at hr
    · exact absurd hr (by simp)
    · rename_i acc1 e1 hp1
      cases hr
      obtain ⟨hshape, _, _⟩ := processDayVoting_shape fuel g g (acc1, e1) hp1
      have hna : acc1.nightActions = g.nightActions := by
        have h2 := congrArg GameState.nightActions hshape
        simpa using h2
      exact ⟨by simp [hna], rfl⟩

/-- A voting phase with no ballots and no winner, in which the guard
protected B this round. -/
def votingCarryState : GameState :=
  { initialGameState with
      phase := GamePhase.voting
      players := [⟨"M", "Mod", PlayerRole.moderator, PlayerStatus.alive, false⟩,
                  ⟨"A", "Ann", PlayerRole.villager, PlayerStatus.alive, false⟩,
                  ⟨"S", "Seer", PlayerRole.seer, PlayerStatus.alive, false⟩,
                  ⟨"W", "Wolf", PlayerRole.wolf, PlayerStatus.alive, false⟩]
      nightActions := { initialNightActions with
        guardTarget := some "B"
        lastGuardTarget := some "B" } }

/-- Witness for the amended lastGuardTarget claim: a first-ever
guardProtect cast updates `lastGuardTarget` at once, and the
voting-to-night boundary carries `guardTarget` into the fresh record. -/
theorem c8_last_guard_amended_witness :
    (castVote freshNightState (some guardPlayer) "B"
        ActionType.guardProtect).1.nightActions.lastGuardTarget = some "B"
    ∧ ((advancePhase 1 votingCarryState).getD
        (votingCarryState, [], none)).1.nightActions.lastGuardTarget = some "B" := by
  constructor
  · exact ((c8_last_guard_amended freshNightState guardPlayer "B" 1).1 rfl (by decide)).2.1
  · have h := ((c8_last_guard_amended votingCarryState guardPlayer "B" 1).2 rfl rfl _ rfl).1
    exact h.trans rfl

/-- Claim C7: day-vote tallying.  With no lynch candidate (zero vote-typed
ballots) the voting pass changes no status and emits the indecisive
narration; with several candidates tied at the maximum it changes no
status and emits the tie narration; with exactly one candidate at the
strict maximum that player ends the pass dead, the lynch narration is
emitted, and the death-ability chain of a hunter or wolf-king target is
triggered; and advance() from voting decides gameOver exactly by the win
evaluation it performs. -/
theorem c7_vote_tally (g : GameState) (fuel : Nat) (t : String) :
    (lynchTargets g.votes = [] →
      processDayVoting fuel g g = some (g, [Narration.noLynch]))
    ∧ (1 < (lynchTargets g.votes).length →
      processDayVoting fuel g g = some (g, [Narration.tieVote]))
    ∧ (lynchTargets g.votes = [t] →
      ∀ r : GameState × List Narration, processDayVoting fuel g g = some r →
        allDeadAt t r.1.players
        ∧ ∀ target : Player, g.players.find? (fun p => p.id = t) = some target →
            Narration.lynched t ∈ r.2
            ∧ (target.role = PlayerRole.hunter → Narration.hunterFinalShot ∈ r.2)
            ∧ (target.role = PlayerRole.wolfKing → Narration.wolfKingRage ∈ r.2))
    ∧ (g.phase = GamePhase.voting →
      ∀ r : GameState × List Narration × Option GameError, advancePhase fuel g = some r →
        (r.1.phase = GamePhase.gameOver ↔ (determineWinners g.players).isSome)) := by
  refine ⟨?_, ?_, ?_, ?_⟩
  · intro h
    simp [processDayVoting, h]
  · intro h
    rcases hl : lynchTargets g.votes with _ | ⟨a, _ | ⟨b, rest⟩⟩
    · rw [hl] at h; simp at h
    · rw [hl] at h; simp at h
    · simp [processDayVoting, hl]
  · intro h r hr
    simp only [processDayVoting, h] at hr
    split at hr
    · rename_i hfind
      cases hr
      constructor
      · intro p hp hid
        have hnone := List.find?_eq_none.mp hfind p hp
        simp [hid] at hnone
      · intro target htarget
        rw [htarget] at hfind
        cases hfind
    · rename_i target htarget
      split at hr
      · rename_i hrole
        split at hr
        · exact absurd hr (by simp)
        · rename_i r1 hr1
          cases hr
          refine ⟨(abilityChain_shape fuel true g _ r1 hr1).2.2 t
            (allDeadAt_markDead_self t g.players), ?_⟩
          intro target2 htarget2
          rw [htarget] at htarget2
          injection htarget2 with he
          subst he
          refine ⟨by simp, fun _ => by simp, fun hwk => ?_⟩
          rw [hrole] at hwk
          cases hwk
      · split at hr
        · rename_i hrole
          split at hr
          · exact absurd hr (by simp)
          · rename_i r1 hr1
            cases hr
            refine ⟨(abilityChain_shape fuel false g _ r1 hr1).2.2 t
              (allDeadAt_markDead_self t g.players), ?_⟩
            intro target2 htarget2
            rw [htarget] at htarget2
            injection htarget2 with he
            subst he
            refine ⟨by simp, fun hh => ?_, fun _ => by simp⟩
            rw [hrole] at hh
            cases hh
        · rename_i hr1 hr2
          cases hr
          refine ⟨allDeadAt_markDead_self t g.players, ?_⟩
          intro target2 htarget2
          rw [htarget] at htarget2
          injection htarget2 with he
          subst he
          exact ⟨by simp, fun hh => absurd hh hr1, fun hw => absurd hw hr2⟩
  · intro hphase r hr
    simp only [advancePhase, hphase] at hr
    split at hr
    · exact absurd hr (by simp)
    · rename_i acc1 e1 hp1
      split at hr
      · rename_i w hw
        cases hr
        simp [hw]
      · rename_i hw
        cases hr
        simp [hw]

/-- A voting phase with ballots A:2, B:2, C:1. -/
def tieVotingState : GameState :=
  { initialGameState with
      phase := GamePhase.voting
      players := [⟨"A", "Ann", PlayerRole.villager, PlayerStatus.alive, false⟩,
                  ⟨"B", "Bo", PlayerRole.villager, PlayerStatus.alive, false⟩,
                  ⟨"C", "Cy", PlayerRole.villager, PlayerStatus.alive, false⟩]
      votes := [⟨"p1", "A", ActionType.vote⟩, ⟨"p2", "A", ActionType.vote⟩,
                ⟨"p3", "B", ActionType.vote⟩, ⟨"p4", "B", ActionType.vote⟩,
                ⟨"p5", "C", ActionType.vote⟩] }

/-- A voting phase with ballots A:3, B:1. -/
def lynchVotingState : GameState :=
  { initialGameState with
      phase := GamePhase.voting
      players := [⟨"A", "Ann", PlayerRole.villager, PlayerStatus.alive, false⟩,
                  ⟨"B", "Bo", PlayerRole.villager, PlayerStatus.alive, false⟩]
      votes := [⟨"p1", "A", ActionType.vote⟩, ⟨"p2", "A", ActionType.vote⟩,
                ⟨"p3", "A", ActionType.vote⟩, ⟨"p4", "B", ActionType.vote⟩] }

/-- Witness for the vote-tally claim on the two examples given in the
specification: counts A:2, B:2, C:1 produce the tie narration and no change,
counts A:3, B:1 eliminate A. -/
theorem c7_vote_tally_witness :
    processDayVoting 1 tieVotingState tieVotingState
        = some (tieVotingState, [Narration.tieVote])
    ∧ allDeadAt "A" (((processDayVoting 1 lynchVotingState lynchVotingState).getD
        (lynchVotingState, [])).1.players) := by
  constructor
  · exact (c7_vote_tally tieVotingState 1 "A").2.1 (by decide)
  · exact ((c7_vote_tally lynchVotingState 1 "A").2.2.1 (by decide) _ rfl).1

/-- Claim C10 (implicit): in a night phase castVote records witchSave
and witchKill targets and consumes the corresponding witch power
unconditionally — for any acting player of any role and even when the
power flag is already false — while role, phase and power availability
are enforced only by the separate isActionAllowed query, which requires
a living witch and a still-charged power. -/
theorem c10_witch_actions_unchecked (g : GameState) (v : Player) (t : String) (pid : String)
    (hphase : g.phase = GamePhase.night) :
    ((castVote g (some v) t ActionType.witchSave).1.nightActions.witchSave = some t
     ∧ (castVote g (some v) t ActionType.witchSave).1.witchPowers.hasPotion = false
     ∧ (castVote g (some v) t ActionType.witchSave).2 = none)
    ∧ ((castVote g (some v) t ActionType.witchKill).1.nightActions.witchKill = some t
       ∧ (castVote g (some v) t ActionType.witchKill).1.witchPowers.hasPoison = false
       ∧ (castVote g (some v) t ActionType.witchKill).2 = none)
    ∧ (isActionAllowed g pid ActionType.witchSave = true →
        g.witchPowers.hasPotion = true
        ∧ ∃ p, g.players.find? (fun q => q.id = pid) = some p
            ∧ p.role = PlayerRole.witch ∧ p.status = PlayerStatus.alive)
    ∧ (isActionAllowed g pid ActionType.witchKill = true →
        g.witchPowers.hasPoison = true
        ∧ ∃ p, g.players.find? (fun q => q.id = pid) = some p
            ∧ p.role = PlayerRole.witch ∧ p.status = PlayerStatus.alive) := by
  refine ⟨?_, ?_, ?_, ?_⟩
  · simp [castVote, hphase]
  · simp [castVote, hphase]
  · intro h
    simp only [isActionAllowed] at h
    split at h
    · cases h
    · rename_i p hfind
      split at h
      · cases h
      · rename_i hstatus
        simp only [decide_eq_true_eq] at h
        refine ⟨h.2.2, p, hfind, h.2.1, ?_⟩
        cases hs : p.status
        · rfl
        · exact absurd hs hstatus
  · intro h
    simp only [isActionAllowed] at h
    split at h
    · cases h
    · rename_i p hfind
      split at h
      · cases h
      · rename_i hstatus
        simp only [decide_eq_true_eq] at h
        refine ⟨h.2.2, p, hfind, h.2.1, ?_⟩
        cases hs : p.status
        · rfl
        · exact absurd hs hstatus

/-- A night in which both witch powers are already consumed and the
acting player is a plain villager. -/
def witchlessNightState : GameState :=
  { initialGameState with
      phase := GamePhase.night
      players := [⟨"A", "Ann", PlayerRole.villager, PlayerStatus.alive, false⟩,
                  ⟨"M", "Mod", PlayerRole.moderator, PlayerStatus.alive, false⟩]
      witchPowers := ⟨false, false⟩ }

/-- The villager who acts in the witness night. -/
def villagerPlayer : Player := ⟨"A", "Ann", PlayerRole.villager, PlayerStatus.alive, false⟩

/-- Witness for the unchecked-witch-action claim: a villager whose game
has no charged potion still records a witchSave target and the potion
flag stays consumed. -/
theorem c10_witch_actions_unchecked_witness :
    (castVote witchlessNightState (some villagerPlayer) "M"
        ActionType.witchSave).1.nightActions.witchSave = some "M"
    ∧ (castVote witchlessNightState (some villagerPlayer) "M"
        ActionType.witchSave).1.witchPowers.hasPotion = false := by
  have h := (c10_witch_actions_unchecked witchlessNightState villagerPlayer "M" "A" rfl).1
  exact ⟨h.1, h.2.1⟩
